import Mathlib

/-!
Shallow embedding of stempy/reader.cpp (namespace stempy): the stream-to-block
record codec (StreamReader::readHeader, StreamReader::read) and the
process pipeline (StreamReader::process): mask lifecycle, worker-pool task
submission and draining, the aggregator, and the file sink.

The byte stream is modelled as a List Nat of bytes; 32-bit and 16-bit
little-endian words are decoded explicitly.  Machine uint32 arithmetic that
can wrap is taken modulo 2^32.
-/

namespace stempy

/-- Modulus of C++ uint32_t arithmetic. -/
def UINT32_MOD : Nat := 4294967296

/-- Little-endian 32-bit word assembled from four stream bytes, as done by
reinterpreting the raw header bytes as a uint32_t array on a little-endian
host (reader.cpp line 57). -/
def u32ofBytes (b0 b1 b2 b3 : Nat) : Nat :=
  b0 + 256 * b1 + 65536 * b2 + 16777216 * b3

/-- Reinterpret a byte list as consecutive little-endian 32-bit words
(a trailing fragment of fewer than 4 bytes is dropped). -/
def bytesToU32s : List Nat → List Nat
  | b0 :: b1 :: b2 :: b3 :: rest => u32ofBytes b0 b1 b2 b3 :: bytesToU32s rest
  | _ => []

/-- Reinterpret a byte list as consecutive little-endian 16-bit samples,
as the payload bytes are reinterpreted as uint16_t (reader.cpp line 90). -/
def bytesToU16s : List Nat → List Nat
  | b0 :: b1 :: rest => (b0 + 256 * b1) :: bytesToU16s rest
  | _ => []

/-- Modelled from the spec: the Header record declared in reader.h (which is
not among the given sources).  Fields per spec section 3: imagesInBlock,
rows, columns, version, timestamp (all uint32) and the ordered imageNumbers. -/
structure Header where
  imagesInBlock : Nat
  rows : Nat
  columns : Nat
  version : Nat
  timestamp : Nat
  imageNumbers : List Nat
deriving Repr, DecidableEq

/-- Decoding of the fixed 1024-word header buffer (reader.cpp lines 60-74):
words 0-4 are imagesInBlock, rows, columns, version, timestamp; words 5-9 are
reserved and skipped; imagesInBlock image numbers are copied starting at
word 10.  The C++ copy does not validate imagesInBlock; the Lean take
truncates where the C++ copy would run past the 1024-word buffer. -/
def readHeaderWords (ws : List Nat) : Header :=
  { imagesInBlock := ws.getD 0 0
    rows := ws.getD 1 0
    columns := ws.getD 2 0
    version := ws.getD 3 0
    timestamp := ws.getD 4 0
    imageNumbers := (ws.drop 10).take (ws.getD 0 0) }

/-- Modelled from the spec: a Block holds one decoded header plus the raw
16-bit pixel payload (reader.h is not among the given sources; reader.cpp
lines 21-25 allocate rows*columns*imagesInBlock uint16 samples). -/
structure Block where
  header : Header
  data : List Nat
deriving Repr, DecidableEq

/-- Modelled from the spec: the default-constructed Block returned at clean
end of stream (reader.cpp line 98) carries a zero-valued header (spec
sections 3 and 4.1: a sentinel with version == 0) and no payload. -/
def Block.sentinel : Block :=
  { header := { imagesInBlock := 0, rows := 0, columns := 0, version := 0,
                timestamp := 0, imageNumbers := [] }
    data := [] }

/-- Exception thrown by the raw-read helper when the stream hits EOF before
size bytes were delivered (reader.cpp lines 42-51). -/
inductive EofException where
  | eof
deriving Repr, DecidableEq

/-- Errors surfaced by StreamReader.read: the invalid_argument thrown at
reader.cpp line 95 on an unexpected EOF mid-record. -/
inductive StreamError where
  | truncatedStream
deriving Repr, DecidableEq

/-- The raw-read helper StreamReader::read(T*, streamsize) (reader.cpp lines
42-51): reads exactly size bytes, or throws EofException when fewer remain.
Returns the bytes read and the remaining stream. -/
def StreamReader.readBytes (size : Nat) (s : List Nat) :
    Except EofException (List Nat × List Nat) :=
  if size ≤ s.length then .ok (s.take size, s.drop size) else .error .eof

/-- StreamReader::readHeader (reader.cpp lines 53-77): reads exactly 1024
32-bit words (4096 bytes) and decodes them with readHeaderWords. -/
def StreamReader.readHeader (s : List Nat) :
    Except EofException (Header × List Nat) :=
  match StreamReader.readBytes 4096 s with
  | .error e => .error e
  | .ok (bs, rest) => .ok (readHeaderWords (bytesToU32s bs), rest)

/-- StreamReader::read() (reader.cpp lines 79-99): peek first; at EOF return
the sentinel Block without consuming anything.  Otherwise read the header,
then the payload of rows*columns*imagesInBlock uint16 samples (the size
product is uint32 arithmetic); any EofException past the peek becomes the
TruncatedStream error. -/
def StreamReader.read (s : List Nat) :
    Except StreamError (Block × List Nat) :=
  if s = [] then .ok (Block.sentinel, s)
  else
    match StreamReader.readHeader s with
    | .error _ => .error .truncatedStream
    | .ok (header, rest) =>
      let dataSize :=
        header.rows * header.columns * header.imagesInBlock % UINT32_MOD
      match StreamReader.readBytes (dataSize * 2) rest with
      | .error _ => .error .truncatedStream
      | .ok (bs, rest2) => .ok ({ header := header, data := bytesToU16s bs }, rest2)

/-! ### Reference writer for the round-trip property -/

/-- Little-endian byte encoding of one 32-bit word. -/
def encodeU32 (v : Nat) : List Nat :=
  [v % 256, v / 256 % 256, v / 65536 % 256, v / 16777216 % 256]

/-- Little-endian byte encoding of one 16-bit sample. -/
def encodeU16 (v : Nat) : List Nat :=
  [v % 256, v / 256 % 256]

/-- The 1024 header words produced by a reference writer: fields in words
0-4, five reserved zero words, the image numbers from word 10 on, and a
zero tail filling the fixed-size record. -/
def headerWords (h : Header) : List Nat :=
  ([h.imagesInBlock, h.rows, h.columns, h.version, h.timestamp] ++
      List.replicate 5 0) ++
    (h.imageNumbers ++ List.replicate (1014 - h.imageNumbers.length) 0)

/-- Byte encoding of the fixed 4096-byte header record. -/
def encodeHeader (h : Header) : List Nat :=
  ((headerWords h).map encodeU32).flatten

/-- Byte encoding of a pixel payload of 16-bit samples. -/
def encodePayload (data : List Nat) : List Nat :=
  (data.map encodeU16).flatten

/-- Byte encoding of one full block record: header then payload. -/
def encodeBlock (h : Header) (data : List Nat) : List Nat :=
  encodeHeader h ++ encodePayload data

/-- A header a reference writer can emit: the image-number list matches
imagesInBlock, fits the fixed record, all fields are uint32 values, and the
declared payload size does not wrap uint32 arithmetic. -/
abbrev WellFormed (h : Header) : Prop :=
  h.imageNumbers.length = h.imagesInBlock ∧
  h.imagesInBlock ≤ 1014 ∧
  h.imagesInBlock < UINT32_MOD ∧
  h.rows < UINT32_MOD ∧
  h.columns < UINT32_MOD ∧
  h.version < UINT32_MOD ∧
  h.timestamp < UINT32_MOD ∧
  h.rows * h.columns * h.imagesInBlock < UINT32_MOD ∧
  ∀ x ∈ h.imageNumbers, x < UINT32_MOD

/-- Payload size declared by the header parsed from the first 4096 bytes of
the stream, in 16-bit samples (uint32 arithmetic). -/
def declaredDataSize (s : List Nat) : Nat :=
  let h := readHeaderWords (bytesToU32s (s.take 4096))
  h.rows * h.columns * h.imagesInBlock % UINT32_MOD

/-! ### The process pipeline -/

/-- A mask over linear pixel indices, as the worker reads the uint16 mask
arrays produced by createAnnularMask. -/
def Mask : Type := Nat → Bool

/-- Modelled from the spec: the STEMValues record declared in image.h (not
among the given sources): imageNumber plus the two 64-bit sums. -/
structure STEMValues where
  imageNumber : Nat
  bright : Nat
  dark : Nat
deriving Repr, DecidableEq

/-- Modelled from the spec: calculateSTEMValues (image.h, not among the
given sources), spec section 4.3: for one image starting at offset, bright
is the sum of the pixel values at mask-true positions of the bright mask,
dark likewise for the dark mask; imageNumber is passed through. -/
def calculateSTEMValues (data : List Nat) (offset numberOfPixels : Nat)
    (brightFieldMask darkFieldMask : Mask) (imageNumber : Nat) : STEMValues :=
  { imageNumber := imageNumber
    bright := ((List.range numberOfPixels).map fun j =>
      if brightFieldMask j then data.getD (offset + j) 0 else 0).sum
    dark := ((List.range numberOfPixels).map fun j =>
      if darkFieldMask j then data.getD (offset + j) 0 else 0).sum }

/-- The compute task enqueued per block (reader.cpp lines 137-148): for each
image i in the block, calculateSTEMValues on its pixel range, with the
per-image offset i*numberOfPixels in uint32 arithmetic. -/
def blockValues (brightFieldMask darkFieldMask : Mask) (b : Block) :
    List STEMValues :=
  (List.range b.header.imagesInBlock).map fun i =>
    let numberOfPixels := b.header.rows * b.header.columns % UINT32_MOD
    calculateSTEMValues b.data (i * numberOfPixels % UINT32_MOD) numberOfPixels
      brightFieldMask darkFieldMask (b.header.imageNumbers.getD i 0)

/-- One call to the external createAnnularMask collaborator, recording the
arguments passed (rows, columns, inner radius, outer radius). -/
structure MaskCall where
  rows : Nat
  columns : Nat
  innerRadius : Nat
  outerRadius : Nat
deriving Repr, DecidableEq

/-- State of the while loop of StreamReader::process (reader.cpp lines
117-149): the two lazily built masks, the trace of createAnnularMask calls,
and the values the submitted tasks will deliver, in submission order. -/
structure LoopState where
  brightFieldMask : Option Mask
  darkFieldMask : Option Mask
  maskCalls : List MaskCall
  results : List (List STEMValues)

/-- One iteration of the process loop on a data block (reader.cpp lines
129-148): build each mask if it is still null — bright from
(rows, columns, 0, 288), dark from (rows, columns, 40, 288), per lines 130
and 134 — then enqueue the compute task for the block. -/
def processBlock (createAnnularMask : Nat → Nat → Nat → Nat → Mask)
    (st : LoopState) (b : Block) : LoopState :=
  let bright : Mask × List MaskCall :=
    match st.brightFieldMask with
    | some m => (m, st.maskCalls)
    | none => (createAnnularMask b.header.rows b.header.columns 0 288,
               st.maskCalls ++ [⟨b.header.rows, b.header.columns, 0, 288⟩])
  let dark : Mask × List MaskCall :=
    match st.darkFieldMask with
    | some m => (m, bright.2)
    | none => (createAnnularMask b.header.rows b.header.columns 40 288,
               bright.2 ++ [⟨b.header.rows, b.header.columns, 40, 288⟩])
  { brightFieldMask := some bright.1
    darkFieldMask := some dark.1
    maskCalls := dark.2
    results := st.results ++ [blockValues bright.1 dark.1 b] }

/-- Initial loop state: both masks null, nothing submitted. -/
def initialLoopState : LoopState :=
  { brightFieldMask := none, darkFieldMask := none, maskCalls := [], results := [] }

/-- The whole process while loop over the arriving data blocks (the blocks
read before the version == 0 terminator), in stream order. -/
def runLoop (createAnnularMask : Nat → Nat → Nat → Nat → Mask)
    (blocks : List Block) : LoopState :=
  blocks.foldl (processBlock createAnnularMask) initialLoopState

/-- Draining of the futures (reader.cpp lines 154-155): the pool completes
tasks in some schedule order, but each future is keyed by its submission
index, so draining handle i yields the values of task i no matter when the
schedule completed it. -/
def drainedValues (schedule : List Nat) (results : List (List STEMValues)) :
    List (List STEMValues) :=
  (List.range results.length).map fun i =>
    ((schedule.map fun j => (j, results.getD j [])).lookup i).getD []

/-- Output index of one STEMValues: value.imageNumber - 1 in uint32
arithmetic (reader.cpp lines 157-158). -/
def writeIndex (v : STEMValues) : Nat :=
  (v.imageNumber + (UINT32_MOD - 1)) % UINT32_MOD

/-- One aggregator write (reader.cpp lines 157-158): assign bright and dark
into the two output arrays at the write index; plain assignment, not
accumulation, with no bounds check in the source. -/
def writeOne (images : List Nat × List Nat) (v : STEMValues) :
    List Nat × List Nat :=
  (images.1.set (writeIndex v) v.bright, images.2.set (writeIndex v) v.dark)

/-- The aggregator (reader.cpp lines 151-160): two zero-filled arrays of
numberOfPixels uint64 values, written in processing order. -/
def aggregate (numberOfPixels : Nat) (values : List STEMValues) :
    List Nat × List Nat :=
  values.foldl writeOne
    (List.replicate numberOfPixels 0, List.replicate numberOfPixels 0)

/-- StreamReader::process up to the finished output images (reader.cpp lines
101-160): run the loop over the blocks, drain the futures in submission
order under the completion schedule, and aggregate block by block.  The
concurrency parameter sizes the pool; it only constrains which completion
schedules can occur, never the drained values. -/
def process (createAnnularMask : Nat → Nat → Nat → Nat → Mask)
    (concurrency width height : Nat) (schedule : List Nat)
    (blocks : List Block) : List Nat × List Nat :=
  let st := runLoop createAnnularMask blocks
  aggregate (width * height) (drainedValues schedule st.results).flatten

/-- Decimal formatting under setw(3) with setfill of the zero character
(reader.cpp lines 181-184): left-pad the decimal digits with zeros to a
minimum width of 3. -/
def pad3 (n : Nat) : String :=
  let s := toString n
  String.mk (List.replicate (3 - s.length) '0') ++ s

/-- The file sink (reader.cpp lines 179-188): two files, bright first, each
holding the whole output array of uint64 values in index order; imageId is
the constant 1 (line 162). -/
def sinkFiles (streamId : Nat) (images : List Nat × List Nat) :
    List (String × List Nat) :=
  let imageId : Nat := 1
  [("bright-" ++ pad3 streamId ++ "." ++ pad3 imageId ++ ".bin", images.1),
   ("dark-" ++ pad3 streamId ++ "." ++ pad3 imageId ++ ".bin", images.2)]

/-- StreamReader::process including the file sink. -/
def processFiles (createAnnularMask : Nat → Nat → Nat → Nat → Mask)
    (streamId concurrency width height : Nat) (schedule : List Nat)
    (blocks : List Block) : List (String × List Nat) :=
  sinkFiles streamId (process createAnnularMask concurrency width height schedule blocks)

/-! ### Codec lemmas -/

theorem bytesToU32s_encodeU32_cons (v : Nat) (rest : List Nat)
    (hv : v < UINT32_MOD) :
    bytesToU32s (encodeU32 v ++ rest) = v :: bytesToU32s rest := by
  have : u32ofBytes (v % 256) (v / 256 % 256) (v / 65536 % 256)
      (v / 16777216 % 256) = v := by
    unfold u32ofBytes
    unfold UINT32_MOD at hv
    omega
  simp [encodeU32, bytesToU32s, this]

theorem bytesToU32s_encode (ws : List Nat) (h : ∀ w ∈ ws, w < UINT32_MOD) :
    bytesToU32s ((ws.map encodeU32).flatten) = ws := by
  induction ws with
  | nil => rfl
  | cons w t ih =>
    simp only [List.map_cons, List.flatten_cons]
    rw [bytesToU32s_encodeU32_cons w _ (h w (by simp))]
    rw [ih (fun x hx => h x (by simp [hx]))]

theorem bytesToU16s_encodeU16_cons (v : Nat) (rest : List Nat)
    (hv : v < 65536) :
    bytesToU16s (encodeU16 v ++ rest) = v :: bytesToU16s rest := by
  have : v % 256 + 256 * (v / 256 % 256) = v := by omega
  simp [encodeU16, bytesToU16s, this]

theorem bytesToU16s_encode (xs : List Nat) (h : ∀ x ∈ xs, x < 65536) :
    bytesToU16s ((xs.map encodeU16).flatten) = xs := by
  induction xs with
  | nil => rfl
  | cons x t ih =>
    simp only [List.map_cons, List.flatten_cons]
    rw [bytesToU16s_encodeU16_cons x _ (h x (by simp))]
    rw [ih (fun y hy => h y (by simp [hy]))]

theorem encodeHeader_length (h : Header)
    (hn : h.imageNumbers.length ≤ 1014) : (encodeHeader h).length = 4096 := by
  have hw : (headerWords h).length = 1024 := by
    simp [headerWords]
    omega
  have : ∀ ws : List Nat, ((ws.map encodeU32).flatten).length = 4 * ws.length := by
    intro ws
    induction ws with
    | nil => rfl
    | cons w t ih => simp [encodeU32, ih]; ring
  rw [encodeHeader, this, hw]

theorem encodePayload_length (data : List Nat) :
    (encodePayload data).length = 2 * data.length := by
  induction data with
  | nil => rfl
  | cons x t ih =>
    have hstep : encodePayload (x :: t) = encodeU16 x ++ encodePayload t := rfl
    have h2 : (encodeU16 x).length = 2 := rfl
    rw [hstep, List.length_append, ih, h2, List.length_cons]
    omega

theorem headerWords_mem_lt (h : Header) (hw : WellFormed h) :
    ∀ w ∈ headerWords h, w < UINT32_MOD := by
  obtain ⟨h1, h2, h3, h4, h5, h6, h7, h8, h9⟩ := hw
  have hz : (0 : Nat) < UINT32_MOD := by unfold UINT32_MOD; omega
  intro w hmem
  rcases List.mem_append.mp hmem with hL | hR
  · rcases List.mem_append.mp hL with hc | hrep
    · simp only [List.mem_cons, List.not_mem_nil, or_false] at hc
      rcases hc with rfl | rfl | rfl | rfl | rfl
      exacts [h3, h4, h5, h6, h7]
    · rw [List.eq_of_mem_replicate hrep]; exact hz
  · rcases List.mem_append.mp hR with hnum | hrep
    · exact h9 w hnum
    · rw [List.eq_of_mem_replicate hrep]; exact hz

theorem readHeaderWords_headerWords (h : Header) (hw : WellFormed h) :
    readHeaderWords (headerWords h) = h := by
  obtain ⟨h1, _⟩ := hw
  cases h with
  | mk n r c v t nums =>
    simp only at h1
    have hexp : headerWords ⟨n, r, c, v, t, nums⟩ =
        n :: r :: c :: v :: t :: 0 :: 0 :: 0 :: 0 :: 0 ::
          (nums ++ List.replicate (1014 - nums.length) 0) := by
      simp [headerWords, List.replicate]
    have hrw : readHeaderWords (n :: r :: c :: v :: t :: 0 :: 0 :: 0 :: 0 :: 0 ::
        (nums ++ List.replicate (1014 - nums.length) 0)) =
        ⟨n, r, c, v, t,
          (nums ++ List.replicate (1014 - nums.length) 0).take n⟩ := rfl
    rw [hexp, hrw, ← h1, List.take_left]

theorem readHeader_encodeBlock (h : Header) (data : List Nat)
    (hw : WellFormed h) :
    StreamReader.readHeader (encodeBlock h data) = .ok (h, encodePayload data) := by
  have hlen : (encodeHeader h).length = 4096 :=
    encodeHeader_length h (by rw [hw.1]; exact hw.2.1)
  have h4 : 4096 ≤ (encodeBlock h data).length := by
    rw [encodeBlock, List.length_append, hlen]
    omega
  have htake : (encodeBlock h data).take 4096 = encodeHeader h :=
    List.take_left' hlen
  have hdrop : (encodeBlock h data).drop 4096 = encodePayload data :=
    List.drop_left' hlen
  have hdec : bytesToU32s (encodeHeader h) = headerWords h :=
    bytesToU32s_encode (headerWords h) (headerWords_mem_lt h hw)
  rw [StreamReader.readHeader, StreamReader.readBytes, if_pos h4, htake, hdrop]
  show Except.ok (readHeaderWords (bytesToU32s (encodeHeader h)),
    encodePayload data) = Except.ok (h, encodePayload data)
  rw [hdec, readHeaderWords_headerWords h hw]

/-- C5: a header encoded by the reference writer as 1024 32-bit words
(fields in words 0-4, five reserved words, imagesInBlock image numbers from
word 10), followed by its payload of rows*columns*imagesInBlock 16-bit
samples, is decoded by readHeader and by the block read back to exactly the
same fields, image-number order and payload (round-trip). -/
theorem c5_round_trip (h : Header) (data : List Nat) (hw : WellFormed h)
    (hd : data.length = h.rows * h.columns * h.imagesInBlock)
    (hx : ∀ x ∈ data, x < 65536) :
    StreamReader.readHeader (encodeBlock h data) = .ok (h, encodePayload data) ∧
    StreamReader.read (encodeBlock h data) =
      .ok ({ header := h, data := data }, []) := by
  have hH := readHeader_encodeBlock h data hw
  refine ⟨hH, ?_⟩
  have hlen : (encodeHeader h).length = 4096 :=
    encodeHeader_length h (by rw [hw.1]; exact hw.2.1)
  have hne : encodeBlock h data ≠ [] := by
    intro hnil
    have := congrArg List.length hnil
    rw [encodeBlock, List.length_append, hlen] at this
    simp at this
  have hmod : h.rows * h.columns * h.imagesInBlock % UINT32_MOD =
      h.rows * h.columns * h.imagesInBlock :=
    Nat.mod_eq_of_lt hw.2.2.2.2.2.2.2.1
  have hplen : (encodePayload data).length =
      h.rows * h.columns * h.imagesInBlock * 2 := by
    rw [encodePayload_length, hd]
    ring
  have hdata : bytesToU16s ((encodePayload data).take
      (h.rows * h.columns * h.imagesInBlock * 2)) = data := by
    rw [← hplen, List.take_length]
    exact bytesToU16s_encode data hx
  have hrest : (encodePayload data).drop
      (h.rows * h.columns * h.imagesInBlock * 2) = [] := by
    rw [← hplen, List.drop_length]
  simp only [StreamReader.read, if_neg hne, hH, StreamReader.readBytes, hmod]
  rw [if_pos (le_of_eq hplen.symm)]
  show (Except.ok
      (Block.mk h (bytesToU16s ((encodePayload data).take
           (h.rows * h.columns * h.imagesInBlock * 2))),
       (encodePayload data).drop (h.rows * h.columns * h.imagesInBlock * 2)) :
      Except StreamError (Block × List Nat)) =
    Except.ok ({ header := h, data := data }, [])
  rw [hdata, hrest]

def c5SampleHeader : Header :=
  { imagesInBlock := 1, rows := 1, columns := 2, version := 1, timestamp := 7,
    imageNumbers := [3] }

theorem c5_round_trip_witness :
    WellFormed c5SampleHeader ∧
    StreamReader.read (encodeBlock c5SampleHeader [5, 300]) =
      .ok ({ header := c5SampleHeader, data := [5, 300] }, []) :=
  ⟨by decide,
   (c5_round_trip c5SampleHeader [5, 300] (by decide) (by decide) (by decide)).2⟩

/-- C2: at a stream position with no bytes remaining (also the zero-block
stream), the block read returns the sentinel Block with version == 0 and no
error; and that peek-before-header branch is the only way a successful read
does not consume a full header plus its declared payload. -/
theorem c2_clean_end_of_stream (s : List Nat) :
    (s = [] → StreamReader.read s = .ok (Block.sentinel, []) ∧
      Block.sentinel.header.version = 0) ∧
    (∀ b rest, StreamReader.read s = .ok (b, rest) → s ≠ [] →
      4096 + (b.header.rows * b.header.columns * b.header.imagesInBlock %
          UINT32_MOD) * 2 + rest.length = s.length) := by
  constructor
  · rintro rfl
    exact ⟨rfl, rfl⟩
  · intro b rest hok hne
    by_cases h4 : 4096 ≤ s.length
    · simp only [StreamReader.read, if_neg hne, StreamReader.readHeader,
        StreamReader.readBytes, if_pos h4] at hok
      by_cases hds : (readHeaderWords (bytesToU32s (s.take 4096))).rows *
          (readHeaderWords (bytesToU32s (s.take 4096))).columns *
          (readHeaderWords (bytesToU32s (s.take 4096))).imagesInBlock %
          UINT32_MOD * 2 ≤ (s.drop 4096).length
      · rw [if_pos hds] at hok
        simp only [Except.ok.injEq, Prod.mk.injEq] at hok
        obtain ⟨hb, hrest⟩ := hok
        subst hb
        subst hrest
        simp only [List.length_drop] at hds ⊢
        omega
      · rw [if_neg hds] at hok
        simp at hok
    · simp only [StreamReader.read, if_neg hne, StreamReader.readHeader,
        StreamReader.readBytes, if_neg h4] at hok
      simp at hok

theorem c2_clean_end_of_stream_witness :
    StreamReader.read [] = .ok (Block.sentinel, []) ∧
    Block.sentinel.header.version = 0 :=
  (c2_clean_end_of_stream []).1 rfl

/-- C3: a stream with at least one byte left but fewer bytes than the fixed
4096-byte header, or fewer than header plus the declared payload of
rows*columns*imagesInBlock 16-bit samples, makes the block read fail with
truncatedStream; it never reports the clean sentinel. -/
theorem c3_truncation (s : List Nat) (hne : s ≠ [])
    (hshort : s.length < 4096 ∨ s.length < 4096 + declaredDataSize s * 2) :
    StreamReader.read s = .error .truncatedStream := by
  by_cases h4 : 4096 ≤ s.length
  · have hds : ¬ declaredDataSize s * 2 ≤ (s.drop 4096).length := by
      rcases hshort with hlt | hlt
      · omega
      · simp only [List.length_drop]
        omega
    have hds2 : ¬ ((readHeaderWords (bytesToU32s (s.take 4096))).rows *
        (readHeaderWords (bytesToU32s (s.take 4096))).columns *
        (readHeaderWords (bytesToU32s (s.take 4096))).imagesInBlock %
        UINT32_MOD * 2 ≤ (s.drop 4096).length) := hds
    simp only [StreamReader.read, if_neg hne, StreamReader.readHeader,
      StreamReader.readBytes, if_pos h4]
    rw [if_neg hds2]
  · simp only [StreamReader.read, if_neg hne, StreamReader.readHeader,
      StreamReader.readBytes, if_neg h4]

theorem c3_truncation_witness :
    StreamReader.read [0] = .error .truncatedStream :=
  c3_truncation [0] (by decide) (Or.inl (by decide))

/-- C10: readHeaderWords copies imagesInBlock words starting at word 10 of
the fixed 1024-word buffer with no validation; the copied range stays
inside the buffer exactly when imagesInBlock is at most 1014, and only then
does the decoded image-number list have the declared length (the Lean model
truncates where the C++ copy would read out of bounds). -/
theorem c10_header_copy_bound (ws : List Nat) (hws : ws.length = 1024) :
    (readHeaderWords ws).imageNumbers.length =
      min (readHeaderWords ws).imagesInBlock 1014 ∧
    ((readHeaderWords ws).imageNumbers.length =
        (readHeaderWords ws).imagesInBlock ↔
      (readHeaderWords ws).imagesInBlock ≤ 1014) ∧
    (10 + (readHeaderWords ws).imagesInBlock ≤ 1024 ↔
      (readHeaderWords ws).imagesInBlock ≤ 1014) := by
  have h1 : (readHeaderWords ws).imagesInBlock = ws.getD 0 0 := rfl
  have h2 : (readHeaderWords ws).imageNumbers =
      (ws.drop 10).take (ws.getD 0 0) := rfl
  rw [h1, h2, List.length_take, List.length_drop, hws]
  refine ⟨rfl, ?_, ?_⟩ <;> omega

theorem c10_header_copy_bound_witness :
    (readHeaderWords (List.replicate 1024 0)).imageNumbers.length =
      min (readHeaderWords (List.replicate 1024 0)).imagesInBlock 1014 :=
  (c10_header_copy_bound (List.replicate 1024 0) (List.length_replicate 1024 0)).1

/-! ### Pipeline lemmas -/

theorem processBlock_full (create : Nat → Nat → Nat → Nat → Mask)
    (bm dm : Mask) (calls : List MaskCall) (res : List (List STEMValues))
    (b : Block) :
    processBlock create ⟨some bm, some dm, calls, res⟩ b =
      ⟨some bm, some dm, calls, res ++ [blockValues bm dm b]⟩ := rfl

theorem foldl_processBlock_full (create : Nat → Nat → Nat → Nat → Mask)
    (bm dm : Mask) (calls : List MaskCall) (blocks : List Block)
    (res : List (List STEMValues)) :
    blocks.foldl (processBlock create) ⟨some bm, some dm, calls, res⟩ =
      ⟨some bm, some dm, calls, res ++ blocks.map (blockValues bm dm)⟩ := by
  induction blocks generalizing res with
  | nil => simp
  | cons b t ih =>
    rw [List.foldl_cons, processBlock_full, ih]
    simp

theorem runLoop_cons (create : Nat → Nat → Nat → Nat → Mask) (b : Block)
    (bs : List Block) :
    runLoop create (b :: bs) =
      ⟨some (create b.header.rows b.header.columns 0 288),
       some (create b.header.rows b.header.columns 40 288),
       [⟨b.header.rows, b.header.columns, 0, 288⟩,
        ⟨b.header.rows, b.header.columns, 40, 288⟩],
       (b :: bs).map (blockValues (create b.header.rows b.header.columns 0 288)
         (create b.header.rows b.header.columns 40 288))⟩ := by
  have hfirst : processBlock create initialLoopState b =
      ⟨some (create b.header.rows b.header.columns 0 288),
       some (create b.header.rows b.header.columns 40 288),
       [⟨b.header.rows, b.header.columns, 0, 288⟩,
        ⟨b.header.rows, b.header.columns, 40, 288⟩],
       [blockValues (create b.header.rows b.header.columns 0 288)
         (create b.header.rows b.header.columns 40 288) b]⟩ := rfl
  rw [runLoop, List.foldl_cons, hfirst, foldl_processBlock_full]
  simp

theorem lookup_map_pair (f : Nat → List STEMValues) (sched : List Nat)
    (i : Nat) (hi : i ∈ sched) :
    ((sched.map fun j => (j, f j)).lookup i) = some (f i) := by
  induction sched with
  | nil => cases hi
  | cons j t ih =>
    rcases List.mem_cons.mp hi with rfl | hmem
    · simp [List.lookup_cons]
    · by_cases h : i = j
      · subst h
        simp [List.lookup_cons]
      · have hbeq : (i == j) = false := beq_eq_false_iff_ne.mpr h
        simp only [List.map_cons, List.lookup_cons, hbeq]
        exact ih hmem

theorem drainedValues_perm (sched : List Nat)
    (results : List (List STEMValues))
    (hp : sched.Perm (List.range results.length)) :
    drainedValues sched results = results := by
  unfold drainedValues
  apply List.ext_getElem
  · simp
  · intro i h1 h2
    rw [List.getElem_map, List.getElem_range]
    have hmem : i ∈ sched :=
      hp.mem_iff.mpr (List.mem_range.mpr h2)
    rw [lookup_map_pair (fun j => results.getD j []) sched i hmem]
    rw [Option.getD_some, List.getD_eq_getElem?_getD, List.getElem?_eq_getElem h2]
    rfl

theorem foldl_writeOne_length (vs : List STEMValues)
    (init : List Nat × List Nat) :
    (vs.foldl writeOne init).1.length = init.1.length ∧
    (vs.foldl writeOne init).2.length = init.2.length := by
  induction vs generalizing init with
  | nil => exact ⟨rfl, rfl⟩
  | cons v t ih =>
    rw [List.foldl_cons]
    have h := ih (writeOne init v)
    simpa [writeOne, List.length_set] using h

theorem getD_set_self (l : List Nat) (k a : Nat) (hk : k < l.length) :
    (l.set k a).getD k 0 = a := by
  rw [List.getD_eq_getElem?_getD, List.getElem?_set_self hk, Option.getD_some]

theorem getD_set_ne (l : List Nat) (i k a : Nat) (h : i ≠ k) :
    (l.set i a).getD k 0 = l.getD k 0 := by
  rw [List.getD_eq_getElem?_getD, List.getElem?_set_ne h,
    ← List.getD_eq_getElem?_getD]

theorem getD_replicate_zero (n k : Nat) :
    (List.replicate n (0 : Nat)).getD k 0 = 0 := by
  rw [List.getD_eq_getElem?_getD, List.getElem?_replicate]
  split <;> rfl

theorem foldl_writeOne_getD (vs : List STEMValues)
    (init : List Nat × List Nat) (k : Nat)
    (h1 : k < init.1.length) (h2 : k < init.2.length) :
    (vs.foldl writeOne init).1.getD k 0 =
      (((vs.filter fun v => writeIndex v = k).getLast?.map fun v =>
        v.bright).getD (init.1.getD k 0)) ∧
    (vs.foldl writeOne init).2.getD k 0 =
      (((vs.filter fun v => writeIndex v = k).getLast?.map fun v =>
        v.dark).getD (init.2.getD k 0)) := by
  induction vs using List.reverseRecOn with
  | nil => exact ⟨rfl, rfl⟩
  | append_singleton l v ih =>
    rw [List.foldl_append, List.foldl_cons, List.foldl_nil, List.filter_append]
    have hl1 : k < (l.foldl writeOne init).1.length := by
      rw [(foldl_writeOne_length l init).1]
      exact h1
    have hl2 : k < (l.foldl writeOne init).2.length := by
      rw [(foldl_writeOne_length l init).2]
      exact h2
    by_cases hv : writeIndex v = k
    · have hfl : List.filter (fun v => writeIndex v = k) [v] = [v] := by
        simp [List.filter_cons, hv]
      rw [hfl, List.getLast?_concat]
      constructor
      · show ((l.foldl writeOne init).1.set (writeIndex v) v.bright).getD k 0 = _
        rw [hv, getD_set_self _ _ _ hl1]
        rfl
      · show ((l.foldl writeOne init).2.set (writeIndex v) v.dark).getD k 0 = _
        rw [hv, getD_set_self _ _ _ hl2]
        rfl
    · have hfl : List.filter (fun v => writeIndex v = k) [v] = [] := by
        simp [List.filter_cons, hv]
      rw [hfl, List.append_nil]
      constructor
      · show ((l.foldl writeOne init).1.set (writeIndex v) v.bright).getD k 0 = _
        rw [getD_set_ne _ _ _ _ hv]
        exact ih.1
      · show ((l.foldl writeOne init).2.set (writeIndex v) v.dark).getD k 0 = _
        rw [getD_set_ne _ _ _ _ hv]
        exact ih.2

theorem writeIndex_eq (v : STEMValues) (hlo : 1 ≤ v.imageNumber)
    (hhi : v.imageNumber < UINT32_MOD) : writeIndex v = v.imageNumber - 1 := by
  unfold writeIndex UINT32_MOD at *
  omega

/-! ### Sample inputs used by witnesses and counterexamples -/

/-- A concrete stand-in for the external createAnnularMask collaborator. -/
def sampleCreate : Nat → Nat → Nat → Nat → Mask :=
  fun _ _ inner outer => fun j => decide (inner ≤ j ∧ j < outer)

def sampleBlockA : Block :=
  { header := { imagesInBlock := 1, rows := 1, columns := 2, version := 1,
                timestamp := 0, imageNumbers := [1] }
    data := [10, 20] }

def sampleBlockB : Block :=
  { header := { imagesInBlock := 1, rows := 1, columns := 2, version := 1,
                timestamp := 0, imageNumbers := [2] }
    data := [30, 40] }

/-! ### Mask lifecycle claims -/

/-- C1 (counterexample): on the first block of a stream with no masks yet,
the claim says the bright mask is built from (rows, columns, 0, boundary)
and the dark mask from (rows, columns, boundary, outerBoundary) — the
bright outer radius equal to the dark inner radius.  The recorded calls at
reader.cpp lines 130 and 134 are (rows, columns, 0, 288) and
(rows, columns, 40, 288), so no such boundary value exists. -/
theorem c1_counterexample :
    ¬ ∃ boundary outerBoundary : Nat,
      (runLoop sampleCreate [sampleBlockA]).maskCalls =
        [⟨sampleBlockA.header.rows, sampleBlockA.header.columns, 0, boundary⟩,
         ⟨sampleBlockA.header.rows, sampleBlockA.header.columns, boundary,
           outerBoundary⟩] := by
  rintro ⟨B, O, hEq⟩
  have hcalls : (runLoop sampleCreate [sampleBlockA]).maskCalls =
      [⟨1, 2, 0, 288⟩, ⟨1, 2, 40, 288⟩] := rfl
  rw [hcalls] at hEq
  simp only [List.cons.injEq, MaskCall.mk.injEq] at hEq
  omega

/-- C1 (amended): on the first block, when no masks exist yet, the bright
mask is constructed from (rows, columns, 0, 288) and the dark mask from
(rows, columns, 40, 288) using the rows and columns of that first block;
the two masks share the outer radius 288, and the outer radius of the
bright mask (288) differs from the inner radius of the dark mask (40). -/
theorem c1_mask_radii (create : Nat → Nat → Nat → Nat → Mask) (b : Block)
    (bs : List Block) :
    (runLoop create (b :: bs)).maskCalls =
      [⟨b.header.rows, b.header.columns, 0, 288⟩,
       ⟨b.header.rows, b.header.columns, 40, 288⟩] ∧
    (288 : Nat) ≠ 40 := by
  rw [runLoop_cons]
  exact ⟨rfl, by omega⟩

/-- C8: for every stream, the masks are built exactly once, from the first
block, when they are still null: the call trace holds exactly the two
first-block calls, both masks are published before any task, every
submitted task closes over those same masks, and later blocks trigger no
rebuild even if their dimensions differ. -/
theorem c8_mask_publish_once (create : Nat → Nat → Nat → Nat → Mask)
    (blocks : List Block) (b : Block) (bs : List Block)
    (hb : blocks = b :: bs) :
    (runLoop create blocks).maskCalls =
      [⟨b.header.rows, b.header.columns, 0, 288⟩,
       ⟨b.header.rows, b.header.columns, 40, 288⟩] ∧
    (runLoop create blocks).brightFieldMask =
      some (create b.header.rows b.header.columns 0 288) ∧
    (runLoop create blocks).darkFieldMask =
      some (create b.header.rows b.header.columns 40 288) ∧
    (runLoop create blocks).results =
      blocks.map (blockValues (create b.header.rows b.header.columns 0 288)
        (create b.header.rows b.header.columns 40 288)) := by
  subst hb
  rw [runLoop_cons]
  exact ⟨rfl, rfl, rfl, rfl⟩

theorem c8_mask_publish_once_witness :
    (runLoop sampleCreate [sampleBlockA, sampleBlockB]).results =
      [sampleBlockA, sampleBlockB].map (blockValues
        (sampleCreate sampleBlockA.header.rows sampleBlockA.header.columns 0 288)
        (sampleCreate sampleBlockA.header.rows sampleBlockA.header.columns 40
          288)) :=
  (c8_mask_publish_once sampleCreate [sampleBlockA, sampleBlockB] sampleBlockA
    [sampleBlockB] rfl).2.2.2

/-! ### Determinism and aggregation claims -/

/-- C4: for every block list, the two output images of the pipeline are the
same for every concurrency value and every completion schedule of the pool,
because futures are drained in submission order and each write is keyed by
imageNumber; the schedule hypotheses say each submitted task completes
exactly once. -/
theorem c4_concurrency_determinism (create : Nat → Nat → Nat → Nat → Mask)
    (width height conc1 conc2 : Nat) (sched1 sched2 : List Nat)
    (blocks : List Block)
    (h1 : sched1.Perm (List.range (runLoop create blocks).results.length))
    (h2 : sched2.Perm (List.range (runLoop create blocks).results.length)) :
    process create conc1 width height sched1 blocks =
      process create conc2 width height sched2 blocks := by
  simp only [process]
  rw [drainedValues_perm sched1 _ h1, drainedValues_perm sched2 _ h2]

theorem c4_concurrency_determinism_witness :
    process sampleCreate 1 2 1 [0, 1] [sampleBlockA, sampleBlockB] =
      process sampleCreate 8 2 1 [1, 0] [sampleBlockA, sampleBlockB] :=
  c4_concurrency_determinism sampleCreate 2 1 1 8 [0, 1] [1, 0]
    [sampleBlockA, sampleBlockB] (by decide) (by decide)

/-- C6: the aggregator drains the futures in submission (stream) order, and
each STEMValues is assigned (not accumulated) at output index
imageNumber - 1; when several drained STEMValues carry the same
imageNumber, the final output holds the bright and dark of the last one in
processing order. -/
theorem c6_aggregator_last_write (schedule : List Nat)
    (results : List (List STEMValues)) (n k : Nat)
    (hp : schedule.Perm (List.range results.length))
    (himg : ∀ v ∈ results.flatten,
      1 ≤ v.imageNumber ∧ v.imageNumber < UINT32_MOD)
    (hk : k < n) :
    drainedValues schedule results = results ∧
    (aggregate n results.flatten).1.getD k 0 =
      ((results.flatten.filter fun v =>
        v.imageNumber - 1 = k).getLast?.map fun v => v.bright).getD 0 ∧
    (aggregate n results.flatten).2.getD k 0 =
      ((results.flatten.filter fun v =>
        v.imageNumber - 1 = k).getLast?.map fun v => v.dark).getD 0 := by
  have hfil : results.flatten.filter (fun v => decide (writeIndex v = k)) =
      results.flatten.filter (fun v => decide (v.imageNumber - 1 = k)) := by
    apply List.filter_congr
    intro v hv
    rw [writeIndex_eq v (himg v hv).1 (himg v hv).2]
  have hlen : k < (List.replicate n (0 : Nat)).length := by simpa using hk
  have hmain := foldl_writeOne_getD results.flatten
    (List.replicate n 0, List.replicate n 0) k hlen hlen
  rw [hfil, getD_replicate_zero] at hmain
  exact ⟨drainedValues_perm schedule results hp, hmain.1, hmain.2⟩

def c6Values : List (List STEMValues) := [[⟨1, 2, 3⟩, ⟨1, 7, 8⟩]]

theorem c6_aggregator_last_write_witness :
    (aggregate 1 c6Values.flatten).1.getD 0 0 =
      ((c6Values.flatten.filter fun v =>
        v.imageNumber - 1 = 0).getLast?.map fun v => v.bright).getD 0 :=
  (c6_aggregator_last_write [0] c6Values 1 0 (by decide) (by decide)
    (by decide)).2.1

/-- C7: under the precondition that every emitted imageNumber lies in
[1, width*height] (imageNumber being a uint32 value), every aggregator
write lands at index imageNumber - 1, strictly inside the two output arrays
whose length stays width*height; the source has no bounds check, so this
precondition is the sole guard. -/
theorem c7_in_bounds (width height : Nat) (vs : List STEMValues)
    (hpre : ∀ v ∈ vs, 1 ≤ v.imageNumber ∧ v.imageNumber ≤ width * height)
    (h32 : ∀ v ∈ vs, v.imageNumber < UINT32_MOD) :
    (∀ v ∈ vs, writeIndex v = v.imageNumber - 1 ∧
      v.imageNumber - 1 < width * height) ∧
    (aggregate (width * height) vs).1.length = width * height ∧
    (aggregate (width * height) vs).2.length = width * height := by
  refine ⟨?_, ?_, ?_⟩
  · intro v hv
    obtain ⟨hp1, hp2⟩ := hpre v hv
    exact ⟨writeIndex_eq v hp1 (h32 v hv), by omega⟩
  · rw [aggregate, (foldl_writeOne_length _ _).1, List.length_replicate]
  · rw [aggregate, (foldl_writeOne_length _ _).2, List.length_replicate]

theorem c7_in_bounds_witness :
    (∀ v ∈ [(⟨1, 5, 6⟩ : STEMValues)], writeIndex v = v.imageNumber - 1 ∧
      v.imageNumber - 1 < 2 * 2) ∧
    (aggregate (2 * 2) [(⟨1, 5, 6⟩ : STEMValues)]).1.length = 2 * 2 :=
  ⟨(c7_in_bounds 2 2 [⟨1, 5, 6⟩] (by decide) (by decide)).1,
   (c7_in_bounds 2 2 [⟨1, 5, 6⟩] (by decide) (by decide)).2.1⟩

/-! ### File sink claim -/

set_option maxRecDepth 10000 in
theorem pad3_length_three : ∀ m, m < 1000 → (pad3 m).length = 3 := by decide

/-- C9: at stream end the file sink writes exactly two flat binary files,
bright-<streamId>.<imageId>.bin then dark-<streamId>.<imageId>.bin, with
both numeric fields zero-padded to three digits (imageId is always 1, and
streamId below 1000 prints as exactly three digits), each containing
exactly width*height uint64 values — the aggregated output arrays in index
(row-major) order. -/
theorem c9_file_sink (create : Nat → Nat → Nat → Nat → Mask)
    (streamId concurrency width height : Nat) (schedule : List Nat)
    (blocks : List Block) (hsid : streamId < 1000) :
    processFiles create streamId concurrency width height schedule blocks =
      [("bright-" ++ pad3 streamId ++ "." ++ pad3 1 ++ ".bin",
        (process create concurrency width height schedule blocks).1),
       ("dark-" ++ pad3 streamId ++ "." ++ pad3 1 ++ ".bin",
        (process create concurrency width height schedule blocks).2)] ∧
    pad3 1 = "001" ∧
    (pad3 streamId).length = 3 ∧
    (process create concurrency width height schedule blocks).1.length =
      width * height ∧
    (process create concurrency width height schedule blocks).2.length =
      width * height := by
  refine ⟨rfl, by decide, pad3_length_three streamId hsid, ?_, ?_⟩
  · have hrfl : (process create concurrency width height schedule blocks).1 =
        ((drainedValues schedule (runLoop create blocks).results).flatten.foldl
          writeOne (List.replicate (width * height) 0,
            List.replicate (width * height) 0)).1 := rfl
    rw [hrfl, (foldl_writeOne_length _ _).1, List.length_replicate]
  · have hrfl : (process create concurrency width height schedule blocks).2 =
        ((drainedValues schedule (runLoop create blocks).results).flatten.foldl
          writeOne (List.replicate (width * height) 0,
            List.replicate (width * height) 0)).2 := rfl
    rw [hrfl, (foldl_writeOne_length _ _).2, List.length_replicate]

theorem c9_file_sink_witness :
    processFiles sampleCreate 3 1 2 1 [0, 1] [sampleBlockA, sampleBlockB] =
      [("bright-" ++ pad3 3 ++ "." ++ pad3 1 ++ ".bin",
        (process sampleCreate 1 2 1 [0, 1] [sampleBlockA, sampleBlockB]).1),
       ("dark-" ++ pad3 3 ++ "." ++ pad3 1 ++ ".bin",
        (process sampleCreate 1 2 1 [0, 1] [sampleBlockA, sampleBlockB]).2)] :=
  (c9_file_sink sampleCreate 3 1 2 1 [0, 1] [sampleBlockA, sampleBlockB]
    (by decide)).1

end stempy
